import Mathlib

/-!
Verification development for the cat-catalog data layer
(`cats/models.py` and `cats/serializers.py`).

The Python source is shallowly embedded:
  * database tables become lists of records inside an explicit `DB` state;
  * Django ORM calls (`objects.create`, `objects.get_or_create`, `save`,
    `achievements.clear`) become pure state-passing functions returning
    `Except Err _` where the ORM can raise;
  * the two external collaborators the serializers call — the `webcolors`
    hex-to-name table and Python's `base64.b64decode` — are modelled as
    executable Lean functions faithful to their documented behaviour on the
    inputs this code feeds them;
  * logging becomes an explicit list of emitted messages.
-/

deriving instance DecidableEq for Except

/-- Errors that can surface from the serialization layer or the storage
layer: DRF `ValidationError` (with its message), the `birth_year_reasonable`
check constraint, and the `unique_together` constraint on `AchievementCat`. -/
inductive Err where
  | validationError (msg : String)
  | checkViolation
  | uniqueViolation
deriving DecidableEq

/-! ## Color normalizer (`Hex2NameColor`, serializers.py lines 15–36) -/

/-- Hexadecimal digit test, as in the `webcolors` hex regex `[a-fA-F0-9]`. -/
def isHexDigitChar (c : Char) : Bool :=
  (decide ('0' ≤ c) && decide (c ≤ '9')) ||
  (decide ('a' ≤ c) && decide (c ≤ 'f')) ||
  (decide ('A' ≤ c) && decide (c ≤ 'F'))

/-- Whether a string matches the `webcolors` hex-color pattern
`#([a-fA-F0-9]{3}|[a-fA-F0-9]{6})`: `webcolors.hex_to_name` raises
`ValueError` on anything else (including plain color names). -/
def isHexColorForm (s : String) : Bool :=
  match s.toList with
  | '#' :: rest => (rest.length = 6 || rest.length = 3) && rest.all isHexDigitChar
  | _ => false

/-- Hex normalization as in `webcolors.normalize_hex`: lowercase the digits
and expand the 3-digit shorthand to 6 digits. -/
def normalizeHex (s : String) : String :=
  match s.toList with
  | '#' :: rest =>
    match rest.map Char.toLower with
    | [a, b, c] => String.mk ('#' :: [a, a, b, b, c, c])
    | low => String.mk ('#' :: low)
  | _ => s

/-- Model of the external `webcolors` CSS3 hex-to-name table (an external
collaborator of this repository; the spec treats the color-name lookup table
as a black-box data source). Representative entries of the CSS3 mapping. -/
def css3HexToNames : List (String × String) :=
  [("#ffffff", "white"), ("#000000", "black"), ("#ff0000", "red"),
   ("#00ff00", "lime"), ("#0000ff", "blue"), ("#000080", "navy"),
   ("#ffa500", "orange"), ("#800080", "purple"), ("#ffc0cb", "pink"),
   ("#a52a2a", "brown"), ("#808080", "grey"), ("#ffff00", "yellow"),
   ("#00ffff", "cyan"), ("#008000", "green"), ("#ff6347", "tomato")]

/-- Model of the external `webcolors.hex_to_name`: normalize a `#RGB`/`#RRGGBB`
string and look it up in the CSS3 table; raise `ValueError` (here: `.error`)
when the input is not a valid hexadecimal color value or has no defined name. -/
def webcolors_hex_to_name (s : String) : Except String String :=
  if isHexColorForm s then
    match css3HexToNames.lookup (normalizeHex s) with
    | some n => Except.ok n
    | none => Except.error (s ++ " has no defined color name in css3")
  else
    Except.error (s ++ " is not a valid hexadecimal color value")

/-- The `ValidationError` message raised by `Hex2NameColor.to_internal_value`. -/
def hexColorErrorMessage : String :=
  "Неверный цветовой код или название для этого цвета не найдено."

/-- `Hex2NameColor.to_representation` (serializers.py lines 20–24): the stored
name is passed through unchanged on read. -/
def Hex2NameColor_to_representation (value : String) : String := value

/-- `Hex2NameColor.to_internal_value` (serializers.py lines 26–36): feed the
incoming string to `webcolors.hex_to_name`; on `ValueError` raise a
`ValidationError` with a fixed message. -/
def Hex2NameColor_to_internal_value (data : String) : Except Err String :=
  match webcolors_hex_to_name data with
  | Except.ok name => Except.ok name
  | Except.error _ => Except.error (Err.validationError hexColorErrorMessage)

/-! ## Base64 image field (`Base64ImageField`, serializers.py lines 53–70) -/

/-- Value of a character in the standard base64 alphabet, if any. -/
def b64charVal (c : Char) : Option Nat :=
  if decide ('A' ≤ c) && decide (c ≤ 'Z') then some (c.toNat - 'A'.toNat)
  else if decide ('a' ≤ c) && decide (c ≤ 'z') then some (c.toNat - 'a'.toNat + 26)
  else if decide ('0' ≤ c) && decide (c ≤ '9') then some (c.toNat - '0'.toNat + 52)
  else if c = '+' then some 62
  else if c = '/' then some 63
  else none

/-- Decode base64 quadruples into bytes; `=` padding is allowed only at the
very end (one or two characters). Mirrors `binascii.a2b_base64` on the
inputs this code feeds it. -/
def b64decodeChunks : List Char → Except String (List Nat)
  | [] => Except.ok []
  | a :: b :: c :: d :: rest =>
    match b64charVal a, b64charVal b with
    | some va, some vb =>
      if c = '=' then
        if d = '=' && decide (rest = []) then
          Except.ok [va * 4 + vb / 16]
        else Except.error "Incorrect padding"
      else
        match b64charVal c with
        | some vc =>
          if d = '=' then
            if rest = [] then
              Except.ok [va * 4 + vb / 16, (vb % 16) * 16 + vc / 4]
            else Except.error "Incorrect padding"
          else
            match b64charVal d with
            | some vd =>
              match b64decodeChunks rest with
              | Except.ok tail =>
                Except.ok ((va * 4 + vb / 16) :: ((vb % 16) * 16 + vc / 4) ::
                           ((vc % 4) * 64 + vd) :: tail)
              | Except.error e => Except.error e
            | none => Except.error "Invalid base64-encoded string"
        | none => Except.error "Invalid base64-encoded string"
    | _, _ => Except.error "Invalid base64-encoded string"
  | _ => Except.error "Incorrect padding"

/-- Model of the external `base64.b64decode` (standard library, called with
`validate=False`): characters outside the base64 alphabet and padding are
discarded first, then the remaining length must be a multiple of 4. -/
def b64decode (s : List Char) : Except String (List Nat) :=
  match (s.filter (fun c => (b64charVal c).isSome || c = '=')) with
  | kept =>
    if kept.length % 4 = 0 then b64decodeChunks kept
    else Except.error "Incorrect padding"

/-- Whether `pat` is an initial segment of `s` (character lists). -/
def matchesFront : List Char → List Char → Bool
  | [], _ => true
  | _ :: _, [] => false
  | p :: ps, c :: cs => p = c && matchesFront ps cs

/-- `str.startswith` on strings, via character lists. -/
def beginsWith (pat s : String) : Bool :=
  matchesFront pat.toList s.toList

/-- Split at the first occurrence of `sep`, returning the pieces before and
after it; `none` when `sep` does not occur. -/
def findSplit (sep : List Char) : List Char → Option (List Char × List Char)
  | [] => if sep = [] then some ([], []) else none
  | c :: cs =>
    if matchesFront sep (c :: cs) then some ([], (c :: cs).drop sep.length)
    else
      match findSplit sep cs with
      | some (pre, post) => some (c :: pre, post)
      | none => none

/-- Whether `sep` occurs anywhere in `s`. -/
def occursIn (sep s : List Char) : Bool :=
  (findSplit sep s).isSome

/-- Python's `format, imgstr = data.split(sep)`: succeeds only when `sep`
occurs exactly once, otherwise raises `ValueError` (too few / too many
values to unpack). -/
def splitOnceExact (sep s : List Char) : Except String (List Char × List Char) :=
  match findSplit sep s with
  | none => Except.error "not enough values to unpack (expected 2, got 1)"
  | some (pre, post) =>
    if occursIn sep post then Except.error "too many values to unpack (expected 2)"
    else Except.ok (pre, post)

/-- `format.split('/')[-1]`: everything after the last `/`, or the whole
string when there is none. -/
def afterLastSlash (s : List Char) : List Char :=
  (s.reverse.takeWhile (fun c => c ≠ '/')).reverse

/-- The body of the `try` block of `Base64ImageField.to_internal_value`
(serializers.py lines 63–66): split the data URL on `;base64,`, take the MIME
subtype after the last `/` as the extension, and base64-decode the payload.
The `.error` message is the exception detail that gets logged. -/
def decodeDataUrl (s : String) : Except String (String × List Nat) :=
  match splitOnceExact (";base64,".toList) s.toList with
  | Except.error e => Except.error e
  | Except.ok (format, imgstr) =>
    match b64decode imgstr with
    | Except.error e => Except.error e
    | Except.ok bs => Except.ok (String.mk (afterLastSlash format), bs)

/-- Input shapes accepted by the image field: a string, an uploaded file
(name and content), or null. -/
inductive ImageData where
  | str (s : String)
  | file (name : String) (content : List Nat)
  | null
deriving DecidableEq

/-- What `Base64ImageField.to_internal_value` hands to
`super().to_internal_value` (the underlying DRF `ImageField`, an external
black box): either the original input unchanged, or the materialized
in-memory `ContentFile` with its name and decoded bytes. -/
inductive UpstreamData where
  | orig (d : ImageData)
  | contentFile (name : String) (content : List Nat)
deriving DecidableEq

/-- `Base64ImageField.to_internal_value` (serializers.py lines 58–70).
Returns the list of messages logged via `logger.error` together with the
outcome: a `ValidationError`, or the value passed through to the underlying
image-field logic. -/
def Base64ImageField_to_internal_value (data : ImageData) :
    List String × Except Err UpstreamData :=
  match data with
  | ImageData.str s =>
    if beginsWith "data:image" s then
      match decodeDataUrl s with
      | Except.ok (ext, bs) =>
        ([], Except.ok (UpstreamData.contentFile ("temp." ++ ext) bs))
      | Except.error e =>
        (["Error decoding base64 image: " ++ e],
         Except.error (Err.validationError "Invalid base64 image data."))
    else ([], Except.ok (UpstreamData.orig (ImageData.str s)))
  | ImageData.file name content =>
    ([], Except.ok (UpstreamData.orig (ImageData.file name content)))
  | ImageData.null => ([], Except.ok (UpstreamData.orig ImageData.null))

/-! ## Data model (`cats/models.py`) -/

/-- `Achievement` (models.py lines 8–24): `{id, name}`. -/
structure Achievement where
  id : Nat
  name : String
deriving DecidableEq

/-- A persisted `Cat` row (models.py lines 27–87): scalar columns plus the
owner foreign key; the achievements relation lives in `AchievementCat` rows. -/
structure CatRec where
  id : Nat
  name : String
  color : String
  birth_year : Int
  owner : Nat
  image : Option String
deriving DecidableEq

/-- `AchievementCat` (models.py lines 90–111): the through row, identified
here by its `(achievement, cat)` foreign-key pair — the columns constrained
by `unique_together`. -/
structure AchievementCat where
  achievement : Nat
  cat : Nat
deriving DecidableEq

/-- The persisted store: the three tables plus the auto-increment counters. -/
structure DB where
  achievements : List Achievement
  cats : List CatRec
  achievementCats : List AchievementCat
  nextAchievementId : Nat
  nextCatId : Nat
deriving DecidableEq

/-- A fresh store: empty tables, primary keys starting at 1. -/
def emptyDB : DB := ⟨[], [], [], 1, 1⟩

/-- The range check of the `birth_year_reasonable` constraint
(models.py lines 71–76): `birth_year__gt=1900, birth_year__lt=2100`. -/
def birthYearReasonable (y : Int) : Prop := 1900 < y ∧ y < 2100

instance (y : Int) : Decidable (birthYearReasonable y) := by
  unfold birthYearReasonable; infer_instance

/-- `Cat.objects.create(**validated_data)`: insert a new `Cat` row, subject
to the `birth_year_reasonable` check constraint enforced by the storage
layer. -/
def Cat_objects_create (db : DB) (name color : String) (birth_year : Int)
    (owner : Nat) (image : Option String) : Except Err (DB × CatRec) :=
  if birthYearReasonable birth_year then
    Except.ok
      ({ db with
          cats := db.cats ++ [⟨db.nextCatId, name, color, birth_year, owner, image⟩],
          nextCatId := db.nextCatId + 1 },
       ⟨db.nextCatId, name, color, birth_year, owner, image⟩)
  else Except.error Err.checkViolation

/-- `instance.save()`: write the (possibly mutated) row back, subject to the
same check constraint. -/
def Cat_save (db : DB) (c : CatRec) : Except Err DB :=
  if birthYearReasonable c.birth_year then
    Except.ok { db with cats := db.cats.map (fun x => if x.id = c.id then c else x) }
  else Except.error Err.checkViolation

/-- `Achievement.objects.get_or_create(**achievement_data)`: the validated
achievement descriptor is `{'name': …}` (the `AchievementSerializer` maps
`achievement_name` to the model's `name` and keeps `id` read-only), so the
lookup is an exact match on `name`; when absent, a fresh row is inserted. -/
def Achievement_get_or_create (db : DB) (name : String) : DB × Achievement :=
  match db.achievements.find? (fun a => a.name = name) with
  | some a => (db, a)
  | none =>
    ({ db with
        achievements := db.achievements ++ [⟨db.nextAchievementId, name⟩],
        nextAchievementId := db.nextAchievementId + 1 },
     ⟨db.nextAchievementId, name⟩)

/-- `AchievementCat.objects.create(achievement=…, cat=…)`: insert a through
row, subject to the `unique_together ['achievement', 'cat']` constraint. -/
def AchievementCat_objects_create (db : DB) (achievement cat : Nat) :
    Except Err DB :=
  if AchievementCat.mk achievement cat ∈ db.achievementCats then
    Except.error Err.uniqueViolation
  else
    Except.ok { db with achievementCats := db.achievementCats ++ [⟨achievement, cat⟩] }

/-- `instance.achievements.clear()` (serializers.py line 140): delete every
through row of the given cat. -/
def achievements_clear (db : DB) (catId : Nat) : DB :=
  { db with achievementCats := db.achievementCats.filter (fun j => j.cat ≠ catId) }

/-- One storage-layer operation performed by the serializer, in execution
order; used to state the persist-before-relate ordering of `update`. -/
inductive DBEvent where
  | saveCat (catId : Nat)
  | clearJoins (catId : Nat)
  | getOrCreate (name : String)
  | createJoin (achievementId catId : Nat)
deriving DecidableEq

/-- Whether an event is the scalar-field persist step. -/
def DBEvent.isSave : DBEvent → Bool
  | DBEvent.saveCat _ => true
  | _ => false

/-- The achievement-attachment loop shared by `create` (serializers.py
lines 120–122) and `update` (lines 141–143): for each descriptor,
get-or-create the `Achievement`, then create the `AchievementCat` join.
Returns the storage events performed together with the outcome; on a
constraint violation the loop stops, leaving prior joins committed. -/
def attachAchievements (db : DB) (names : List String) (catId : Nat) :
    List DBEvent × Except Err DB :=
  match names with
  | [] => ([], Except.ok db)
  | n :: rest =>
    match AchievementCat_objects_create (Achievement_get_or_create db n).1
            (Achievement_get_or_create db n).2.id catId with
    | Except.error e => ([DBEvent.getOrCreate n], Except.error e)
    | Except.ok db2 =>
      (DBEvent.getOrCreate n :: DBEvent.createJoin (Achievement_get_or_create db n).2.id catId ::
         (attachAchievements db2 rest catId).1,
       (attachAchievements db2 rest catId).2)

/-- The validated attribute set handed to `CatSerializer.create`:
the writable scalar fields plus the optional nested achievements list
(`required=False`, so it may be absent). Each descriptor is its `name`. -/
structure CatInput where
  name : String
  color : String
  birth_year : Int
  image : Option String
  achievements : Option (List String)
deriving DecidableEq

/-- `CatSerializer.create` (serializers.py lines 113–124): pop `achievements`
(defaulting to the empty list), create the `Cat` row from the remaining
fields, then run the attachment loop. `owner` is assigned by the serving
context, not by client input. -/
def CatSerializer_create (db : DB) (d : CatInput) (owner : Nat) :
    Except Err (DB × CatRec) :=
  match Cat_objects_create db d.name d.color d.birth_year owner d.image with
  | Except.error e => Except.error e
  | Except.ok p =>
    match (attachAchievements p.1 (d.achievements.getD []) p.2.id).2 with
    | Except.error e => Except.error e
    | Except.ok db2 => Except.ok (db2, p.2)

/-- The partial attribute set handed to `CatSerializer.update`: every field
may be present or absent; a present `image` may still be null
(`allow_null=True`). -/
structure CatUpdateInput where
  name : Option String
  color : Option String
  birth_year : Option Int
  image : Option (Option String)
  achievements : Option (List String)
deriving DecidableEq

/-- The scalar-field mutation of `CatSerializer.update` (serializers.py
lines 132–135): each of name, color, birth_year, image is overwritten only
when present in the input (`validated_data.get(field, current)`). -/
def updatedCat (inst : CatRec) (d : CatUpdateInput) : CatRec :=
  { inst with
      name := d.name.getD inst.name,
      color := d.color.getD inst.color,
      birth_year := d.birth_year.getD inst.birth_year,
      image := d.image.getD inst.image }

/-- `CatSerializer.update` (serializers.py lines 126–145): pop `achievements`
(defaulting to `None`), overwrite the scalar fields, `save()` the row, and
only then — when the achievements key was present at all — clear the
existing relation and rebuild it with the attachment loop.  Returns the
storage events performed together with the outcome. -/
def CatSerializer_update (db : DB) (inst : CatRec) (d : CatUpdateInput) :
    List DBEvent × Except Err (DB × CatRec) :=
  match Cat_save db (updatedCat inst d) with
  | Except.error e => ([], Except.error e)
  | Except.ok db1 =>
    match d.achievements with
    | none => ([DBEvent.saveCat inst.id], Except.ok (db1, updatedCat inst d))
    | some achs =>
      (DBEvent.saveCat inst.id :: DBEvent.clearJoins inst.id ::
         (attachAchievements (achievements_clear db1 inst.id) achs inst.id).1,
       match (attachAchievements (achievements_clear db1 inst.id) achs inst.id).2 with
       | Except.error e => Except.error e
       | Except.ok db3 => Except.ok (db3, updatedCat inst d))

/-- Ordered insertion by achievement name. -/
def insertByName (a : Achievement) : List Achievement → List Achievement
  | [] => [a]
  | b :: rest => if a.name ≤ b.name then a :: b :: rest else b :: insertByName a rest

/-- Sort achievements by name, the queryset ordering declared in
`Achievement.Meta.ordering = ['name']`. -/
def sortByName : List Achievement → List Achievement
  | [] => []
  | a :: rest => insertByName a (sortByName rest)

/-- The read direction of the nested achievements list: the cat's through
rows resolved to `Achievement` records, in the model's name ordering. -/
def readAchievements (db : DB) (catId : Nat) : List Achievement :=
  sortByName
    ((db.achievementCats.filter (fun j => j.cat = catId)).filterMap
      (fun j => db.achievements.find? (fun a => a.id = j.achievement)))

/-- `CatSerializer.get_age` (serializers.py lines 107–111):
`dt.datetime.now().year - obj.birth_year`; the current year is an input of
the model (the clock is external). -/
def CatSerializer_get_age (currentYear : Int) (obj : CatRec) : Int :=
  currentYear - obj.birth_year

/-- `CatSerializer.Meta.fields` (serializers.py lines 97–100). -/
def CatSerializer_fields : List String :=
  ["id", "name", "color", "birth_year", "achievements", "owner", "age", "image"]

/-- `CatSerializer.Meta.read_only_fields` (serializers.py line 101). -/
def CatSerializer_read_only_fields : List String := ["owner", "age", "id"]

/-- The fields the serializer will read from a write payload. -/
def CatSerializer_writable_fields : List String :=
  CatSerializer_fields.filter (fun f => f ∉ CatSerializer_read_only_fields)

/-- A raw write payload as a client may send it: every serializer field,
each possibly supplied or not.  `image` may be supplied as null or as a
data-URL string. -/
structure WritePayload where
  id : Option Nat
  name : Option String
  color : Option String
  birth_year : Option Int
  achievements : Option (List String)
  owner : Option Nat
  age : Option Int
  image : Option (Option String)
deriving DecidableEq

/-- A required field: absent means a `ValidationError`. -/
def requireField {α : Type} : Option α → Except Err α
  | some v => Except.ok v
  | none => Except.error (Err.validationError "This field is required.")

/-- The write direction of `CatSerializer` as DRF drives it (the field
machinery itself is the external framework): fields listed in
`read_only_fields` — and the `SerializerMethodField` `age` — are never read
from the payload; `color` runs through `Hex2NameColor.to_internal_value`;
`image` (optional, nullable) runs through `Base64ImageField.to_internal_value`,
and a string the decoder passes through is rejected by the underlying
`ImageField`. -/
def CatSerializer_to_internal_value (p : WritePayload) : Except Err CatInput := do
  let name ← requireField p.name
  let colorRaw ← requireField p.color
  let color ← Hex2NameColor_to_internal_value colorRaw
  let birth_year ← requireField p.birth_year
  let image ←
    match p.image with
    | none => Except.ok (none : Option String)
    | some none => Except.ok (none : Option String)
    | some (some s) =>
      match (Base64ImageField_to_internal_value (ImageData.str s)).2 with
      | Except.ok (UpstreamData.contentFile nm _) => Except.ok (some nm)
      | Except.ok (UpstreamData.orig _) =>
        Except.error (Err.validationError "Upload a valid image.")
      | Except.error e => Except.error e
  Except.ok ⟨name, color, birth_year, image, p.achievements⟩

/-- The full write path: validate the payload, then `create` with the
server-assigned owner. -/
def createFromPayload (db : DB) (p : WritePayload) (serverOwner : Nat) :
    Except Err (DB × CatRec) := do
  let d ← CatSerializer_to_internal_value p
  CatSerializer_create db d serverOwner

/-- How a request outcome reaches the caller. -/
inductive ApiResult where
  | success (catId : Nat)
  | rejectedInput
deriving DecidableEq

/-- Modelled from the spec: the validation-error transport (the views layer
of this repository is not under `src/`) — "All surfaced to the caller as a
rejected-input response; none are retried", with storage-layer constraint
violations in the same taxonomy. -/
def surface (r : Except Err (DB × CatRec)) : ApiResult :=
  match r with
  | Except.ok (_, c) => ApiResult.success c.id
  | Except.error _ => ApiResult.rejectedInput

/-- The `unique_together` invariant: no duplicated `(achievement, cat)` pair
among the through rows. -/
def NoDupJoins (db : DB) : Prop := db.achievementCats.Nodup

instance (db : DB) : Decidable (NoDupJoins db) := by
  unfold NoDupJoins; infer_instance

/-! ## Helper lemmas about the storage operations -/

theorem gc_snd_name (db : DB) (n : String) :
    (Achievement_get_or_create db n).2.name = n := by
  unfold Achievement_get_or_create
  cases h : db.achievements.find? (fun a => a.name = n) with
  | none => simp
  | some a =>
    have := List.find?_some h
    simpa using this

theorem gc_snd_mem (db : DB) (n : String) :
    (Achievement_get_or_create db n).2 ∈ (Achievement_get_or_create db n).1.achievements := by
  unfold Achievement_get_or_create
  cases h : db.achievements.find? (fun a => a.name = n) with
  | none => simp
  | some a =>
    simpa using List.mem_of_find?_eq_some h

theorem gc_achMono (db : DB) (n : String) :
    ∀ a ∈ db.achievements, a ∈ (Achievement_get_or_create db n).1.achievements := by
  unfold Achievement_get_or_create
  cases h : db.achievements.find? (fun a => a.name = n) with
  | none => intro a ha; simp [ha]
  | some b => intro a ha; simpa using ha

theorem gc_ach_shape (db : DB) (n : String) :
    ∀ a ∈ (Achievement_get_or_create db n).1.achievements,
      a ∈ db.achievements ∨ (a.name = n ∧ ∀ b ∈ db.achievements, b.name ≠ n) := by
  unfold Achievement_get_or_create
  cases h : db.achievements.find? (fun a => a.name = n) with
  | none =>
    intro a ha
    simp at ha
    cases ha with
    | inl hin => exact Or.inl hin
    | inr hnew =>
      refine Or.inr ⟨by simp [hnew], ?_⟩
      intro b hb
      have := List.find?_eq_none.mp h b hb
      simpa using this
  | some b => intro a ha; exact Or.inl (by simpa using ha)

theorem gc_joins (db : DB) (n : String) :
    (Achievement_get_or_create db n).1.achievementCats = db.achievementCats := by
  unfold Achievement_get_or_create
  cases h : db.achievements.find? (fun a => a.name = n) <;> simp

theorem gc_cats (db : DB) (n : String) :
    (Achievement_get_or_create db n).1.cats = db.cats ∧
    (Achievement_get_or_create db n).1.nextCatId = db.nextCatId := by
  unfold Achievement_get_or_create
  cases h : db.achievements.find? (fun a => a.name = n) <;> simp

theorem oc_ok_spec (db : DB) (a c : Nat) (db' : DB)
    (h : AchievementCat_objects_create db a c = Except.ok db') :
    db'.achievementCats = db.achievementCats ++ [⟨a, c⟩] ∧
    AchievementCat.mk a c ∉ db.achievementCats ∧
    db'.achievements = db.achievements ∧ db'.cats = db.cats ∧
    db'.nextCatId = db.nextCatId := by
  unfold AchievementCat_objects_create at h
  split at h
  · exact absurd h (by simp)
  · next hmem =>
    rw [Except.ok.injEq] at h
    subst h
    exact ⟨rfl, hmem, rfl, rfl, rfl⟩

theorem oc_mem_error (db : DB) (a c : Nat)
    (h : AchievementCat.mk a c ∈ db.achievementCats) :
    AchievementCat_objects_create db a c = Except.error Err.uniqueViolation := by
  unfold AchievementCat_objects_create
  simp [h]

theorem cc_ok_spec (db : DB) (n c : String) (y : Int) (o : Nat) (i : Option String)
    (p : DB × CatRec) (h : Cat_objects_create db n c y o i = Except.ok p) :
    p.2 = ⟨db.nextCatId, n, c, y, o, i⟩ ∧
    p.1.cats = db.cats ++ [p.2] ∧
    p.1.achievements = db.achievements ∧
    p.1.achievementCats = db.achievementCats ∧
    birthYearReasonable y := by
  unfold Cat_objects_create at h
  split at h
  · next hy =>
    rw [Except.ok.injEq] at h
    subst h
    exact ⟨rfl, rfl, rfl, rfl, hy⟩
  · exact absurd h (by simp)

theorem cs_ok_spec (db : DB) (c : CatRec) (db' : DB)
    (h : Cat_save db c = Except.ok db') :
    db'.achievements = db.achievements ∧
    db'.achievementCats = db.achievementCats ∧
    birthYearReasonable c.birth_year := by
  unfold Cat_save at h
  split at h
  · next hy =>
    rw [Except.ok.injEq] at h
    subst h
    exact ⟨rfl, rfl, hy⟩
  · exact absurd h (by simp)

theorem attach_ok_tables : ∀ (ns : List String) (db db' : DB) (cid : Nat),
    (attachAchievements db ns cid).2 = Except.ok db' →
    db'.cats = db.cats ∧ db'.nextCatId = db.nextCatId := by
  intro ns
  induction ns with
  | nil =>
    intro db db' cid h
    simp [attachAchievements] at h
    subst h
    exact ⟨rfl, rfl⟩
  | cons n rest ih =>
    intro db db' cid h
    simp only [attachAchievements] at h
    cases hoc : AchievementCat_objects_create (Achievement_get_or_create db n).1
        (Achievement_get_or_create db n).2.id cid with
    | error e => rw [hoc] at h; simp at h
    | ok db2 =>
      rw [hoc] at h
      simp only at h
      obtain ⟨h1, h2⟩ := ih db2 db' cid h
      obtain ⟨_, _, _, hC, hN⟩ := oc_ok_spec _ _ _ _ hoc
      obtain ⟨gcC, gcN⟩ := gc_cats db n
      exact ⟨by rw [h1, hC, gcC], by rw [h2, hN, gcN]⟩

theorem attach_achMono : ∀ (ns : List String) (db db' : DB) (cid : Nat),
    (attachAchievements db ns cid).2 = Except.ok db' →
    ∀ a ∈ db.achievements, a ∈ db'.achievements := by
  intro ns
  induction ns with
  | nil =>
    intro db db' cid h a ha
    simp [attachAchievements] at h
    subst h
    exact ha
  | cons n rest ih =>
    intro db db' cid h a ha
    simp only [attachAchievements] at h
    cases hoc : AchievementCat_objects_create (Achievement_get_or_create db n).1
        (Achievement_get_or_create db n).2.id cid with
    | error e => rw [hoc] at h; simp at h
    | ok db2 =>
      rw [hoc] at h
      simp only at h
      refine ih db2 db' cid h a ?_
      obtain ⟨_, _, hA, _, _⟩ := oc_ok_spec _ _ _ _ hoc
      rw [hA]
      exact gc_achMono db n a ha

theorem attach_joinMono : ∀ (ns : List String) (db db' : DB) (cid : Nat),
    (attachAchievements db ns cid).2 = Except.ok db' →
    ∀ j ∈ db.achievementCats, j ∈ db'.achievementCats := by
  intro ns
  induction ns with
  | nil =>
    intro db db' cid h j hj
    simp [attachAchievements] at h
    subst h
    exact hj
  | cons n rest ih =>
    intro db db' cid h j hj
    simp only [attachAchievements] at h
    cases hoc : AchievementCat_objects_create (Achievement_get_or_create db n).1
        (Achievement_get_or_create db n).2.id cid with
    | error e => rw [hoc] at h; simp at h
    | ok db2 =>
      rw [hoc] at h
      simp only at h
      refine ih db2 db' cid h j ?_
      obtain ⟨hJ, _, _, _, _⟩ := oc_ok_spec _ _ _ _ hoc
      rw [hJ, gc_joins db n]
      exact List.mem_append_left _ hj

theorem attach_names : ∀ (ns : List String) (db db' : DB) (cid : Nat),
    (attachAchievements db ns cid).2 = Except.ok db' →
    ∀ n ∈ ns, ∃ a, a ∈ db'.achievements ∧ a.name = n ∧
      AchievementCat.mk a.id cid ∈ db'.achievementCats := by
  intro ns
  induction ns with
  | nil => intro db db' cid h n hn; simp at hn
  | cons m rest ih =>
    intro db db' cid h n hn
    simp only [attachAchievements] at h
    cases hoc : AchievementCat_objects_create (Achievement_get_or_create db m).1
        (Achievement_get_or_create db m).2.id cid with
    | error e => rw [hoc] at h; simp at h
    | ok db2 =>
      rw [hoc] at h
      simp only at h
      obtain ⟨hJ, _, hA, _, _⟩ := oc_ok_spec _ _ _ _ hoc
      rcases List.mem_cons.mp hn with heq | htail
      · subst heq
        refine ⟨(Achievement_get_or_create db n).2, ?_, gc_snd_name db n, ?_⟩
        · refine attach_achMono rest db2 db' cid h _ ?_
          rw [hA]
          exact gc_snd_mem db n
        · refine attach_joinMono rest db2 db' cid h _ ?_
          rw [hJ]
          exact List.mem_append_right _ (by simp)
      · exact ih db2 db' cid h n htail

theorem attach_joins_shape : ∀ (ns : List String) (db db' : DB) (cid : Nat),
    (attachAchievements db ns cid).2 = Except.ok db' →
    ∀ j ∈ db'.achievementCats, j ∈ db.achievementCats ∨
      (j.cat = cid ∧ ∃ a, a ∈ db'.achievements ∧ a.id = j.achievement ∧ a.name ∈ ns) := by
  intro ns
  induction ns with
  | nil =>
    intro db db' cid h j hj
    simp [attachAchievements] at h
    subst h
    exact Or.inl hj
  | cons n rest ih =>
    intro db db' cid h j hj
    simp only [attachAchievements] at h
    cases hoc : AchievementCat_objects_create (Achievement_get_or_create db n).1
        (Achievement_get_or_create db n).2.id cid with
    | error e => rw [hoc] at h; simp at h
    | ok db2 =>
      rw [hoc] at h
      simp only at h
      obtain ⟨hJ, _, hA, _, _⟩ := oc_ok_spec _ _ _ _ hoc
      rcases ih db2 db' cid h j hj with hin2 | ⟨hcat, a, haMem, haId, haName⟩
      · rw [hJ, gc_joins db n] at hin2
        rcases List.mem_append.mp hin2 with hold | hnew
        · exact Or.inl hold
        · simp at hnew
          subst hnew
          refine Or.inr ⟨rfl, (Achievement_get_or_create db n).2, ?_, rfl, ?_⟩
          · refine attach_achMono rest db2 db' cid h _ ?_
            rw [hA]
            exact gc_snd_mem db n
          · simp [gc_snd_name db n]
      · exact Or.inr ⟨hcat, a, haMem, haId, List.mem_cons_of_mem n haName⟩

theorem attach_ach_shape : ∀ (ns : List String) (db db' : DB) (cid : Nat),
    (attachAchievements db ns cid).2 = Except.ok db' →
    ∀ a ∈ db'.achievements, a ∈ db.achievements ∨
      (a.name ∈ ns ∧ ∀ b ∈ db.achievements, b.name ≠ a.name) := by
  intro ns
  induction ns with
  | nil =>
    intro db db' cid h a ha
    simp [attachAchievements] at h
    subst h
    exact Or.inl ha
  | cons n rest ih =>
    intro db db' cid h a ha
    simp only [attachAchievements] at h
    cases hoc : AchievementCat_objects_create (Achievement_get_or_create db n).1
        (Achievement_get_or_create db n).2.id cid with
    | error e => rw [hoc] at h; simp at h
    | ok db2 =>
      rw [hoc] at h
      simp only at h
      obtain ⟨_, _, hA, _, _⟩ := oc_ok_spec _ _ _ _ hoc
      rcases ih db2 db' cid h a ha with hin2 | ⟨hname, hfresh⟩
      · rw [hA] at hin2
        rcases gc_ach_shape db n a hin2 with hold | ⟨hn, hall⟩
        · exact Or.inl hold
        · refine Or.inr ⟨by simp [hn], ?_⟩
          intro b hb
          rw [hn]
          exact hall b hb
      · refine Or.inr ⟨List.mem_cons_of_mem n hname, ?_⟩
        intro b hb
        refine hfresh b ?_
        rw [hA]
        exact gc_achMono db n b hb

theorem attach_nodup : ∀ (ns : List String) (db db' : DB) (cid : Nat),
    db.achievementCats.Nodup →
    (attachAchievements db ns cid).2 = Except.ok db' →
    db'.achievementCats.Nodup := by
  intro ns
  induction ns with
  | nil =>
    intro db db' cid hnd h
    simp [attachAchievements] at h
    subst h
    exact hnd
  | cons n rest ih =>
    intro db db' cid hnd h
    simp only [attachAchievements] at h
    cases hoc : AchievementCat_objects_create (Achievement_get_or_create db n).1
        (Achievement_get_or_create db n).2.id cid with
    | error e => rw [hoc] at h; simp at h
    | ok db2 =>
      rw [hoc] at h
      simp only at h
      obtain ⟨hJ, hmem, _, _, _⟩ := oc_ok_spec _ _ _ _ hoc
      refine ih db2 db' cid ?_ h
      rw [hJ, gc_joins db n]
      rw [gc_joins db n] at hmem
      refine List.nodup_append.mpr ⟨hnd, List.nodup_singleton _, ?_⟩
      intro x hx hx'
      simp at hx'
      subst hx'
      exact hmem hx

theorem attach_events_no_save : ∀ (ns : List String) (db : DB) (cid : Nat),
    ∀ e ∈ (attachAchievements db ns cid).1, e.isSave = false := by
  intro ns
  induction ns with
  | nil => intro db cid e he; simp [attachAchievements] at he
  | cons n rest ih =>
    intro db cid e he
    simp only [attachAchievements] at he
    cases hoc : AchievementCat_objects_create (Achievement_get_or_create db n).1
        (Achievement_get_or_create db n).2.id cid with
    | error _ =>
      rw [hoc] at he
      simp at he
      subst he
      rfl
    | ok db2 =>
      rw [hoc] at he
      simp only at he
      rcases List.mem_cons.mp he with h1 | he'
      · subst h1; rfl
      · rcases List.mem_cons.mp he' with h2 | he'' 
        · subst h2; rfl
        · exact ih db2 cid e he''

/-! ## Claim theorems -/

/-- C1 (counterexample): the claim says an already-resolved color name is
returned by the write direction of the normalizer, failing only on unmapped
hex codes.  But `to_internal_value` feeds every input to
`webcolors.hex_to_name`, which rejects non-hex strings: on the resolved
color name "white" it raises the `ValidationError` instead of returning
"white". -/
theorem hex2NameColor_name_input_counterexample :
    "white" ∈ css3HexToNames.map Prod.snd ∧
    isHexColorForm "white" = false ∧
    Hex2NameColor_to_internal_value "white" =
      Except.error (Err.validationError hexColorErrorMessage) ∧
    Hex2NameColor_to_internal_value "white" ≠ Except.ok "white" := by
  refine ⟨by decide, by decide, by decide, by decide⟩

/-- C1 (amended): the write direction of the color normalizer returns the
canonical name exactly for hex codes with a known name mapping; every other
string — a hex code with no mapping, or any non-hex input including an
already-resolved color name — fails with the validation error. -/
theorem hex2NameColor_hex_only_spec :
    ∀ s : String,
      (∀ n, isHexColorForm s = true →
        css3HexToNames.lookup (normalizeHex s) = some n →
        Hex2NameColor_to_internal_value s = Except.ok n) ∧
      (isHexColorForm s = true →
        css3HexToNames.lookup (normalizeHex s) = none →
        Hex2NameColor_to_internal_value s =
          Except.error (Err.validationError hexColorErrorMessage)) ∧
      (isHexColorForm s = false →
        Hex2NameColor_to_internal_value s =
          Except.error (Err.validationError hexColorErrorMessage)) := by
  intro s
  refine ⟨?_, ?_, ?_⟩
  · intro n h1 h2
    simp [Hex2NameColor_to_internal_value, webcolors_hex_to_name, h1, h2]
  · intro h1 h2
    simp [Hex2NameColor_to_internal_value, webcolors_hex_to_name, h1, h2]
  · intro h1
    simp [Hex2NameColor_to_internal_value, webcolors_hex_to_name, h1]

/-- C1 (witness): the amended statement evaluated on a mapped hex code and
on an unmapped one. -/
theorem hex2NameColor_hex_only_spec_witness :
    Hex2NameColor_to_internal_value "#ffffff" = Except.ok "white" ∧
    Hex2NameColor_to_internal_value "#123456" =
      Except.error (Err.validationError hexColorErrorMessage) :=
  ⟨(hex2NameColor_hex_only_spec "#ffffff").1 "white" (by decide) (by decide),
   (hex2NameColor_hex_only_spec "#123456").2.1 (by decide) (by decide)⟩

/-- C2: on a `data:image…` string whose header splits and whose base64
payload decodes, the image field passes an in-memory file `temp.<ext>` with
the decoded bytes to the underlying image-field logic, logging nothing; when
the string matches the prefix but the decode pipeline fails for any reason,
the exception detail is logged and a `ValidationError` is raised; raw files
and null are passed through unchanged. -/
theorem base64ImageField_spec :
    ∀ (s ext e nm : String) (bs content : List Nat),
      (beginsWith "data:image" s = true →
        decodeDataUrl s = Except.ok (ext, bs) →
        Base64ImageField_to_internal_value (ImageData.str s) =
          ([], Except.ok (UpstreamData.contentFile ("temp." ++ ext) bs))) ∧
      (beginsWith "data:image" s = true →
        decodeDataUrl s = Except.error e →
        Base64ImageField_to_internal_value (ImageData.str s) =
          (["Error decoding base64 image: " ++ e],
           Except.error (Err.validationError "Invalid base64 image data."))) ∧
      (Base64ImageField_to_internal_value (ImageData.file nm content) =
        ([], Except.ok (UpstreamData.orig (ImageData.file nm content)))) ∧
      (Base64ImageField_to_internal_value ImageData.null =
        ([], Except.ok (UpstreamData.orig ImageData.null))) := by
  intro s ext e nm bs content
  refine ⟨?_, ?_, rfl, rfl⟩
  · intro h1 h2
    simp [Base64ImageField_to_internal_value, h1, h2]
  · intro h1 h2
    simp [Base64ImageField_to_internal_value, h1, h2]

/-- C2 (witness): a concrete valid payload (`aGk=` decodes to the bytes of
"hi") and a concrete payload with invalid base64 content. -/
theorem base64ImageField_spec_witness :
    Base64ImageField_to_internal_value (ImageData.str "data:image/png;base64,aGk=") =
      ([], Except.ok (UpstreamData.contentFile "temp.png" [104, 105])) ∧
    Base64ImageField_to_internal_value (ImageData.str "data:image/png;base64,abc") =
      (["Error decoding base64 image: Incorrect padding"],
       Except.error (Err.validationError "Invalid base64 image data.")) :=
  ⟨(base64ImageField_spec "data:image/png;base64,aGk=" "png" "" "" [104, 105] []).1
      (by decide) (by decide),
   (base64ImageField_spec "data:image/png;base64,abc" "" "Incorrect padding" "" [] []).2.1
      (by decide) (by decide)⟩

/-- C6: inserting a `Cat` row succeeds iff `1900 < birth_year < 2100` (the
`birth_year_reasonable` check constraint), and a value outside the range
reaches the caller as a rejected-input response (the error transport is
modelled from the spec, the views layer being outside `src/`). -/
theorem birthYear_constraint_spec :
    ∀ (db : DB) (name color : String) (y : Int) (owner : Nat) (image : Option String),
      ((∃ r, Cat_objects_create db name color y owner image = Except.ok r) ↔
        (1900 < y ∧ y < 2100)) ∧
      (¬(1900 < y ∧ y < 2100) →
        surface (Cat_objects_create db name color y owner image) = ApiResult.rejectedInput) := by
  intro db name color y owner image
  constructor
  · constructor
    · rintro ⟨r, hr⟩
      unfold Cat_objects_create at hr
      split at hr
      · next hy => exact hy
      · exact absurd hr (by simp)
    · intro hy
      have hy' : birthYearReasonable y := hy
      unfold Cat_objects_create
      rw [if_pos hy']
      exact ⟨_, rfl⟩
  · intro hy
    have hy' : ¬ birthYearReasonable y := hy
    unfold surface Cat_objects_create
    rw [if_neg hy']

/-- C6 (witness): a birth year inside the range is accepted, one outside is
rejected. -/
theorem birthYear_constraint_spec_witness :
    (∃ r, Cat_objects_create emptyDB "Tom" "white" 2020 1 none = Except.ok r) ∧
    surface (Cat_objects_create emptyDB "Tom" "white" 1800 1 none) = ApiResult.rejectedInput :=
  ⟨(birthYear_constraint_spec emptyDB "Tom" "white" 2020 1 none).1.mpr (by decide),
   (birthYear_constraint_spec emptyDB "Tom" "white" 1800 1 none).2 (by decide)⟩

/-- C9: the writable surface excludes `owner`, `age` and `id`; whatever a
payload supplies for those three fields changes neither the validated data
nor the record stored by the create path; and `get_age` equals the current
calendar year minus `birth_year`. -/
theorem readOnly_fields_and_age :
    ∀ (p : WritePayload) (i : Option Nat) (o : Option Nat) (ag : Option Int)
      (db : DB) (serverOwner : Nat) (y : Int) (c : CatRec),
      CatSerializer_writable_fields = ["name", "color", "birth_year", "achievements", "image"] ∧
      CatSerializer_to_internal_value { p with id := i, owner := o, age := ag } =
        CatSerializer_to_internal_value p ∧
      createFromPayload db { p with id := i, owner := o, age := ag } serverOwner =
        createFromPayload db p serverOwner ∧
      CatSerializer_get_age y c = y - c.birth_year := by
  intro p i o ag db serverOwner y c
  exact ⟨by decide, rfl, rfl, rfl⟩

/-- C10: in `create`, omitting `achievements` is the same as supplying the
empty list — `validated_data.pop('achievements', [])` defaults to `[]` — and
in both cases no `Achievement` row and no join row is created. -/
theorem create_omitted_achievements_eq_empty :
    ∀ (db : DB) (d : CatInput) (owner : Nat),
      CatSerializer_create db { d with achievements := none } owner =
        CatSerializer_create db { d with achievements := some [] } owner ∧
      (∀ (db' : DB) (cat : CatRec),
        CatSerializer_create db { d with achievements := none } owner = Except.ok (db', cat) →
        db'.achievements = db.achievements ∧ db'.achievementCats = db.achievementCats) := by
  intro db d owner
  constructor
  · rfl
  · intro db' cat h
    unfold CatSerializer_create at h
    dsimp only at h
    cases hcc : Cat_objects_create db d.name d.color d.birth_year owner d.image with
    | error e => rw [hcc] at h; simp at h
    | ok p =>
      rw [hcc] at h
      simp only [attachAchievements] at h
      rw [Except.ok.injEq, Prod.mk.injEq] at h
      obtain ⟨hdb, _⟩ := h
      obtain ⟨_, _, hA, hJ, _⟩ := cc_ok_spec _ _ _ _ _ _ _ hcc
      subst hdb
      exact ⟨hA, hJ⟩

/-- C10 (witness): the second part applied at a concrete input: creating with
no achievements key leaves the achievement and join tables empty. -/
theorem create_omitted_achievements_eq_empty_witness :
    (⟨[], [⟨1, "Tom", "white", 2020, 1, none⟩], [], 1, 2⟩ : DB).achievements =
        emptyDB.achievements ∧
    (⟨[], [⟨1, "Tom", "white", 2020, 1, none⟩], [], 1, 2⟩ : DB).achievementCats =
        emptyDB.achievementCats :=
  (create_omitted_achievements_eq_empty emptyDB ⟨"Tom", "white", 2020, none, none⟩ 1).2
    ⟨[], [⟨1, "Tom", "white", 2020, 1, none⟩], [], 1, 2⟩
    ⟨1, "Tom", "white", 2020, 1, none⟩ (by decide)

/-- C3: a successful `create` stores the cat with exactly the validated
scalar fields and the server-assigned owner; every achievement descriptor
ends up as an `Achievement` row of that name joined to the new cat; every
join row is either pre-existing or links the new cat to a listed name; and
an `Achievement` row is only ever created for a listed name that had no
existing row (get-or-create). -/
theorem catSerializer_create_spec :
    ∀ (db : DB) (d : CatInput) (owner : Nat) (db' : DB) (cat : CatRec),
      CatSerializer_create db d owner = Except.ok (db', cat) →
      cat.name = d.name ∧ cat.color = d.color ∧ cat.birth_year = d.birth_year ∧
      cat.owner = owner ∧ cat.image = d.image ∧ cat ∈ db'.cats ∧
      (∀ n ∈ d.achievements.getD [], ∃ a, a ∈ db'.achievements ∧ a.name = n ∧
        AchievementCat.mk a.id cat.id ∈ db'.achievementCats) ∧
      (∀ j ∈ db'.achievementCats, j ∈ db.achievementCats ∨
        (j.cat = cat.id ∧ ∃ a, a ∈ db'.achievements ∧ a.id = j.achievement ∧
          a.name ∈ d.achievements.getD [])) ∧
      (∀ a ∈ db'.achievements, a ∈ db.achievements ∨
        (a.name ∈ d.achievements.getD [] ∧ ∀ b ∈ db.achievements, b.name ≠ a.name)) := by
  intro db d owner db' cat h
  unfold CatSerializer_create at h
  cases hcc : Cat_objects_create db d.name d.color d.birth_year owner d.image with
  | error e => rw [hcc] at h; simp at h
  | ok p =>
    rw [hcc] at h
    simp only at h
    cases hat : (attachAchievements p.1 (d.achievements.getD []) p.2.id).2 with
    | error e => rw [hat] at h; simp at h
    | ok db2 =>
      rw [hat] at h
      simp only [Except.ok.injEq, Prod.mk.injEq] at h
      obtain ⟨hdb, hcat⟩ := h
      subst hdb
      subst hcat
      obtain ⟨hp2, hcats, hachs, hjoins, _⟩ := cc_ok_spec _ _ _ _ _ _ _ hcc
      refine ⟨by rw [hp2], by rw [hp2], by rw [hp2], by rw [hp2], by rw [hp2], ?_, ?_, ?_, ?_⟩
      · obtain ⟨hc, _⟩ := attach_ok_tables _ _ _ _ hat
        rw [hc, hcats]
        exact List.mem_append_right _ (by simp)
      · exact attach_names _ _ _ _ hat
      · intro j hj
        rcases attach_joins_shape _ _ _ _ hat j hj with hold | hnew
        · rw [hjoins] at hold
          exact Or.inl hold
        · exact Or.inr hnew
      · intro a ha
        rcases attach_ach_shape _ _ _ _ hat a ha with hold | ⟨h1, h2⟩
        · rw [hachs] at hold
          exact Or.inl hold
        · refine Or.inr ⟨h1, ?_⟩
          intro b hb
          exact h2 b (by rw [hachs]; exact hb)

/-- C3 (witness): the create specification evaluated on a concrete input
with one achievement descriptor. -/
theorem catSerializer_create_spec_witness :
    (⟨1, "Kit", "black", 2021, 5, none⟩ : CatRec).name = "Kit" ∧
    (⟨1, "Kit", "black", 2021, 5, none⟩ : CatRec).color = "black" ∧
    (⟨1, "Kit", "black", 2021, 5, none⟩ : CatRec).birth_year = 2021 ∧
    (⟨1, "Kit", "black", 2021, 5, none⟩ : CatRec).owner = 5 ∧
    (⟨1, "Kit", "black", 2021, 5, none⟩ : CatRec).image = none ∧
    (⟨1, "Kit", "black", 2021, 5, none⟩ : CatRec) ∈
      (⟨[⟨1, "Feline"⟩], [⟨1, "Kit", "black", 2021, 5, none⟩], [⟨1, 1⟩], 2, 2⟩ : DB).cats ∧
    (∀ n ∈ (some ["Feline"] : Option (List String)).getD [], ∃ a,
      a ∈ (⟨[⟨1, "Feline"⟩], [⟨1, "Kit", "black", 2021, 5, none⟩], [⟨1, 1⟩], 2, 2⟩ : DB).achievements ∧
      a.name = n ∧
      AchievementCat.mk a.id (⟨1, "Kit", "black", 2021, 5, none⟩ : CatRec).id ∈
        (⟨[⟨1, "Feline"⟩], [⟨1, "Kit", "black", 2021, 5, none⟩], [⟨1, 1⟩], 2, 2⟩ : DB).achievementCats) ∧
    (∀ j ∈ (⟨[⟨1, "Feline"⟩], [⟨1, "Kit", "black", 2021, 5, none⟩], [⟨1, 1⟩], 2, 2⟩ : DB).achievementCats,
      j ∈ emptyDB.achievementCats ∨
      (j.cat = (⟨1, "Kit", "black", 2021, 5, none⟩ : CatRec).id ∧ ∃ a,
        a ∈ (⟨[⟨1, "Feline"⟩], [⟨1, "Kit", "black", 2021, 5, none⟩], [⟨1, 1⟩], 2, 2⟩ : DB).achievements ∧
        a.id = j.achievement ∧ a.name ∈ (some ["Feline"] : Option (List String)).getD [])) ∧
    (∀ a ∈ (⟨[⟨1, "Feline"⟩], [⟨1, "Kit", "black", 2021, 5, none⟩], [⟨1, 1⟩], 2, 2⟩ : DB).achievements,
      a ∈ emptyDB.achievements ∨
      (a.name ∈ (some ["Feline"] : Option (List String)).getD [] ∧
        ∀ b ∈ emptyDB.achievements, b.name ≠ a.name)) :=
  catSerializer_create_spec emptyDB ⟨"Kit", "black", 2021, none, some ["Feline"]⟩ 5
    ⟨[⟨1, "Feline"⟩], [⟨1, "Kit", "black", 2021, 5, none⟩], [⟨1, 1⟩], 2, 2⟩
    ⟨1, "Kit", "black", 2021, 5, none⟩ (by decide)

/-- C8: creating a cat with achievements `[{name: "Climber"}]` and reading
it back yields exactly one entry named "Climber"; creating a second cat with
the same achievement name reuses the existing `Achievement` row — the
achievements table still holds a single "Climber" row, now joined to both
cats. -/
theorem create_roundtrip_climber :
    CatSerializer_create emptyDB ⟨"Tom", "white", 2020, none, some ["Climber"]⟩ 1 =
      Except.ok (⟨[⟨1, "Climber"⟩], [⟨1, "Tom", "white", 2020, 1, none⟩], [⟨1, 1⟩], 2, 2⟩,
        ⟨1, "Tom", "white", 2020, 1, none⟩) ∧
    readAchievements ⟨[⟨1, "Climber"⟩], [⟨1, "Tom", "white", 2020, 1, none⟩], [⟨1, 1⟩], 2, 2⟩ 1 =
      [⟨1, "Climber"⟩] ∧
    CatSerializer_create ⟨[⟨1, "Climber"⟩], [⟨1, "Tom", "white", 2020, 1, none⟩], [⟨1, 1⟩], 2, 2⟩
        ⟨"Ann", "black", 2021, none, some ["Climber"]⟩ 2 =
      Except.ok (⟨[⟨1, "Climber"⟩],
        [⟨1, "Tom", "white", 2020, 1, none⟩, ⟨2, "Ann", "black", 2021, 2, none⟩],
        [⟨1, 1⟩, ⟨1, 2⟩], 2, 3⟩, ⟨2, "Ann", "black", 2021, 2, none⟩) ∧
    readAchievements ⟨[⟨1, "Climber"⟩],
        [⟨1, "Tom", "white", 2020, 1, none⟩, ⟨2, "Ann", "black", 2021, 2, none⟩],
        [⟨1, 1⟩, ⟨1, 2⟩], 2, 3⟩ 2 = [⟨1, "Climber"⟩] ∧
    ((⟨[⟨1, "Climber"⟩],
        [⟨1, "Tom", "white", 2020, 1, none⟩, ⟨2, "Ann", "black", 2021, 2, none⟩],
        [⟨1, 1⟩, ⟨1, 2⟩], 2, 3⟩ : DB).achievements.filter
          (fun a => a.name = "Climber")).length = 1 := by
  refine ⟨by decide, by decide, by decide, by decide, by decide⟩

theorem updatedCat_fields (inst : CatRec) (d : CatUpdateInput) :
    (updatedCat inst d).id = inst.id ∧ (updatedCat inst d).owner = inst.owner ∧
    (d.name = none → (updatedCat inst d).name = inst.name) ∧
    (∀ v, d.name = some v → (updatedCat inst d).name = v) ∧
    (d.color = none → (updatedCat inst d).color = inst.color) ∧
    (∀ v, d.color = some v → (updatedCat inst d).color = v) ∧
    (d.birth_year = none → (updatedCat inst d).birth_year = inst.birth_year) ∧
    (∀ v, d.birth_year = some v → (updatedCat inst d).birth_year = v) ∧
    (d.image = none → (updatedCat inst d).image = inst.image) ∧
    (∀ v, d.image = some v → (updatedCat inst d).image = v) := by
  refine ⟨rfl, rfl, ?_, ?_, ?_, ?_, ?_, ?_, ?_, ?_⟩ <;> (intros; simp [updatedCat, *])

/-- C4: on a successful update every scalar field of the resulting record is
the supplied value when present and the prior value when absent (id and
owner never change); and the event trace is either empty (the save itself
was rejected, so nothing was mutated) or starts with the save of the record,
followed only by relation operations — the record is persisted before any
mutation of the many-to-many achievements relation. -/
theorem catSerializer_update_scalars_order :
    ∀ (db : DB) (inst : CatRec) (d : CatUpdateInput),
      (∀ (db' : DB) (cat : CatRec),
        (CatSerializer_update db inst d).2 = Except.ok (db', cat) →
        cat.id = inst.id ∧ cat.owner = inst.owner ∧
        (d.name = none → cat.name = inst.name) ∧
        (∀ v, d.name = some v → cat.name = v) ∧
        (d.color = none → cat.color = inst.color) ∧
        (∀ v, d.color = some v → cat.color = v) ∧
        (d.birth_year = none → cat.birth_year = inst.birth_year) ∧
        (∀ v, d.birth_year = some v → cat.birth_year = v) ∧
        (d.image = none → cat.image = inst.image) ∧
        (∀ v, d.image = some v → cat.image = v)) ∧
      ((CatSerializer_update db inst d).1 = [] ∨
        ∃ rest, (CatSerializer_update db inst d).1 = DBEvent.saveCat inst.id :: rest ∧
          ∀ e ∈ rest, e.isSave = false) := by
  intro db inst d
  constructor
  · intro db' cat h
    unfold CatSerializer_update at h
    cases hsv : Cat_save db (updatedCat inst d) with
    | error e => rw [hsv] at h; simp at h
    | ok db1 =>
      rw [hsv] at h
      cases hach : d.achievements with
      | none =>
        rw [hach] at h
        simp only [Except.ok.injEq, Prod.mk.injEq] at h
        obtain ⟨-, hcat⟩ := h
        subst hcat
        exact updatedCat_fields inst d
      | some achs =>
        rw [hach] at h
        simp only at h
        cases hat : (attachAchievements (achievements_clear db1 inst.id) achs inst.id).2 with
        | error e => rw [hat] at h; simp at h
        | ok db3 =>
          rw [hat] at h
          simp only [Except.ok.injEq, Prod.mk.injEq] at h
          obtain ⟨-, hcat⟩ := h
          subst hcat
          exact updatedCat_fields inst d
  · unfold CatSerializer_update
    cases hsv : Cat_save db (updatedCat inst d) with
    | error e => exact Or.inl rfl
    | ok db1 =>
      cases hach : d.achievements with
      | none => exact Or.inr ⟨[], rfl, by simp⟩
      | some achs =>
        refine Or.inr ⟨DBEvent.clearJoins inst.id ::
          (attachAchievements (achievements_clear db1 inst.id) achs inst.id).1, rfl, ?_⟩
        intro e he
        rcases List.mem_cons.mp he with h1 | h2
        · subst h1; rfl
        · exact attach_events_no_save _ _ _ e h2

def c4inst : CatRec := ⟨1, "Tom", "white", 2020, 7, none⟩

def c4db : DB := ⟨[], [c4inst], [], 1, 2⟩

def c4upd : CatUpdateInput := ⟨some "Max", none, none, none, none⟩

def c4res : CatRec := ⟨1, "Max", "white", 2020, 7, none⟩

/-- C4 (witness): the scalar-field part applied to a concrete update that
supplies only a new name. -/
theorem catSerializer_update_scalars_order_witness :
    c4res.id = c4inst.id ∧ c4res.owner = c4inst.owner ∧
    (c4upd.name = none → c4res.name = c4inst.name) ∧
    (∀ v, c4upd.name = some v → c4res.name = v) ∧
    (c4upd.color = none → c4res.color = c4inst.color) ∧
    (∀ v, c4upd.color = some v → c4res.color = v) ∧
    (c4upd.birth_year = none → c4res.birth_year = c4inst.birth_year) ∧
    (∀ v, c4upd.birth_year = some v → c4res.birth_year = v) ∧
    (c4upd.image = none → c4res.image = c4inst.image) ∧
    (∀ v, c4upd.image = some v → c4res.image = v) :=
  (catSerializer_update_scalars_order c4db c4inst c4upd).1
    ⟨[], [c4res], [], 1, 2⟩ c4res (by decide)

/-- C5: on a successful update, when the achievements key is absent the join
table is untouched; when it is present (any list, including the empty one)
every listed name ends up joined to the cat, and every join row of the
result either predates the update and belongs to another cat — the cat's own
prior joins are cleared — or links the cat to a listed name. -/
theorem catSerializer_update_achievements_spec :
    ∀ (db : DB) (inst : CatRec) (d : CatUpdateInput) (db' : DB) (cat : CatRec),
      (CatSerializer_update db inst d).2 = Except.ok (db', cat) →
      (d.achievements = none → db'.achievementCats = db.achievementCats) ∧
      (∀ l, d.achievements = some l →
        (∀ n ∈ l, ∃ a, a ∈ db'.achievements ∧ a.name = n ∧
          AchievementCat.mk a.id inst.id ∈ db'.achievementCats) ∧
        (∀ j ∈ db'.achievementCats,
          (j ∈ db.achievementCats ∧ j.cat ≠ inst.id) ∨
          (j.cat = inst.id ∧ ∃ a, a ∈ db'.achievements ∧ a.id = j.achievement ∧
            a.name ∈ l))) := by
  intro db inst d db' cat h
  unfold CatSerializer_update at h
  cases hsv : Cat_save db (updatedCat inst d) with
  | error e => rw [hsv] at h; simp at h
  | ok db1 =>
    rw [hsv] at h
    obtain ⟨hA1, hJ1, -⟩ := cs_ok_spec _ _ _ hsv
    cases hach : d.achievements with
    | none =>
      rw [hach] at h
      simp only [Except.ok.injEq, Prod.mk.injEq] at h
      obtain ⟨hdb, -⟩ := h
      subst hdb
      constructor
      · intro _; exact hJ1
      · intro l hl
        cases hl
    | some achs =>
      rw [hach] at h
      simp only at h
      cases hat : (attachAchievements (achievements_clear db1 inst.id) achs inst.id).2 with
      | error e => rw [hat] at h; simp at h
      | ok db3 =>
        rw [hat] at h
        simp only [Except.ok.injEq, Prod.mk.injEq] at h
        obtain ⟨hdb, -⟩ := h
        subst hdb
        constructor
        · intro hn; cases hn
        · intro l hl
          injection hl with hl
          subst hl
          constructor
          · exact attach_names _ _ _ _ hat
          · intro j hj
            rcases attach_joins_shape _ _ _ _ hat j hj with hmem | hnew
            · obtain ⟨hjd, hne⟩ := List.mem_filter.mp hmem
              rw [hJ1] at hjd
              exact Or.inl ⟨hjd, by simpa using hne⟩
            · exact Or.inr hnew

def c5inst : CatRec := ⟨1, "Tom", "white", 2020, 7, none⟩

def c5db : DB := ⟨[⟨1, "Old"⟩], [c5inst], [⟨1, 1⟩], 2, 2⟩

def c5upd : CatUpdateInput := ⟨none, none, none, none, some ["Star"]⟩

def c5db' : DB := ⟨[⟨1, "Old"⟩, ⟨2, "Star"⟩], [c5inst], [⟨2, 1⟩], 3, 2⟩

/-- C5 (witness): the update specification applied to a concrete update that
replaces the achievement set `["Old"]` by `["Star"]`. -/
theorem catSerializer_update_achievements_spec_witness :
    (c5upd.achievements = none → c5db'.achievementCats = c5db.achievementCats) ∧
    (∀ l, c5upd.achievements = some l →
      (∀ n ∈ l, ∃ a, a ∈ c5db'.achievements ∧ a.name = n ∧
        AchievementCat.mk a.id c5inst.id ∈ c5db'.achievementCats) ∧
      (∀ j ∈ c5db'.achievementCats,
        (j ∈ c5db.achievementCats ∧ j.cat ≠ c5inst.id) ∨
        (j.cat = c5inst.id ∧ ∃ a, a ∈ c5db'.achievements ∧ a.id = j.achievement ∧
          a.name ∈ l))) :=
  catSerializer_update_achievements_spec c5db c5inst c5upd c5db' c5inst (by decide)

/-- C7: a join row for an `(achievement, cat)` pair already present is
rejected with the uniqueness violation, and both serializer operations
preserve the no-duplicate-pairs invariant, so pairs are never duplicated in
any state reachable through them. -/
theorem achievementCat_pair_unique :
    ∀ (db : DB),
      (∀ a c : Nat, AchievementCat.mk a c ∈ db.achievementCats →
        AchievementCat_objects_create db a c = Except.error Err.uniqueViolation) ∧
      (∀ (d : CatInput) (owner : Nat) (db' : DB) (cat : CatRec), NoDupJoins db →
        CatSerializer_create db d owner = Except.ok (db', cat) → NoDupJoins db') ∧
      (∀ (inst : CatRec) (d : CatUpdateInput) (db' : DB) (cat : CatRec), NoDupJoins db →
        (CatSerializer_update db inst d).2 = Except.ok (db', cat) → NoDupJoins db') := by
  intro db
  refine ⟨?_, ?_, ?_⟩
  · intro a c hmem
    exact oc_mem_error db a c hmem
  · intro d owner db' cat hnd h
    unfold CatSerializer_create at h
    cases hcc : Cat_objects_create db d.name d.color d.birth_year owner d.image with
    | error e => rw [hcc] at h; simp at h
    | ok p =>
      rw [hcc] at h
      simp only at h
      cases hat : (attachAchievements p.1 (d.achievements.getD []) p.2.id).2 with
      | error e => rw [hat] at h; simp at h
      | ok db2 =>
        rw [hat] at h
        simp only [Except.ok.injEq, Prod.mk.injEq] at h
        obtain ⟨hdb, -⟩ := h
        subst hdb
        obtain ⟨-, -, -, hJ, -⟩ := cc_ok_spec _ _ _ _ _ _ _ hcc
        refine attach_nodup _ _ _ _ ?_ hat
        rw [hJ]
        exact hnd
  · intro inst d db' cat hnd h
    unfold CatSerializer_update at h
    cases hsv : Cat_save db (updatedCat inst d) with
    | error e => rw [hsv] at h; simp at h
    | ok db1 =>
      rw [hsv] at h
      obtain ⟨-, hJ1, -⟩ := cs_ok_spec _ _ _ hsv
      cases hach : d.achievements with
      | none =>
        rw [hach] at h
        simp only [Except.ok.injEq, Prod.mk.injEq] at h
        obtain ⟨hdb, -⟩ := h
        subst hdb
        unfold NoDupJoins
        rw [hJ1]
        exact hnd
      | some achs =>
        rw [hach] at h
        simp only at h
        cases hat : (attachAchievements (achievements_clear db1 inst.id) achs inst.id).2 with
        | error e => rw [hat] at h; simp at h
        | ok db3 =>
          rw [hat] at h
          simp only [Except.ok.injEq, Prod.mk.injEq] at h
          obtain ⟨hdb, -⟩ := h
          subst hdb
          refine attach_nodup _ _ _ _ ?_ hat
          refine List.Nodup.filter _ ?_
          rw [hJ1]
          exact hnd

def c7db : DB := ⟨[⟨1, "Old"⟩], [⟨1, "Tom", "white", 2020, 7, none⟩], [⟨1, 1⟩], 2, 2⟩

/-- C7 (witness): the duplicate join is rejected on a concrete store, and
the invariant is preserved through a concrete create and a concrete
achievements-clearing update. -/
theorem achievementCat_pair_unique_witness :
    AchievementCat_objects_create c7db 1 1 = Except.error Err.uniqueViolation ∧
    NoDupJoins ⟨[⟨1, "Old"⟩],
      [⟨1, "Tom", "white", 2020, 7, none⟩, ⟨2, "Ann", "black", 2021, 2, none⟩],
      [⟨1, 1⟩, ⟨1, 2⟩], 2, 3⟩ ∧
    NoDupJoins ⟨[⟨1, "Old"⟩], [⟨1, "Tom", "white", 2020, 7, none⟩], [], 2, 2⟩ :=
  ⟨(achievementCat_pair_unique c7db).1 1 1 (by decide),
   (achievementCat_pair_unique c7db).2.1 ⟨"Ann", "black", 2021, none, some ["Old"]⟩ 2
     ⟨[⟨1, "Old"⟩],
       [⟨1, "Tom", "white", 2020, 7, none⟩, ⟨2, "Ann", "black", 2021, 2, none⟩],
       [⟨1, 1⟩, ⟨1, 2⟩], 2, 3⟩ ⟨2, "Ann", "black", 2021, 2, none⟩ (by decide) (by decide),
   (achievementCat_pair_unique c7db).2.2 ⟨1, "Tom", "white", 2020, 7, none⟩
     ⟨none, none, none, none, some []⟩
     ⟨[⟨1, "Old"⟩], [⟨1, "Tom", "white", 2020, 7, none⟩], [], 2, 2⟩
     ⟨1, "Tom", "white", 2020, 7, none⟩ (by decide) (by decide)⟩
